import Mathlib

/-!
Verification of the citation-normalization and chat-session protocol layer

Shallow embedding of `prudent-frontend/lib/api.ts`: the response normalizer
(`normalizeSource`, `normalizeSources`, `hashString`), the error-message
resolution (`parseError`), and the success-path body handling of
`askKnowledgeAgent`, `listChatSessions`, `getChatSessionMessages` and
`webSearch`.

JSON-shaped JavaScript values are modelled by the mutual inductive `JValue`
(with `undefined` for the JavaScript value `undefined`, distinct from JSON `null`).
Numbers are modelled as integers.  JavaScript string primitives used by the
code are modelled explicitly: `jsToString` models `String(x)`, `jsonStringify`
models `JSON.stringify`, `jsTrim` models `String.prototype.trim`,
`jsToLower` models `String.prototype.toLowerCase`, and `toInt32` models the
`| 0` coercion.  Strings are treated as sequences of Unicode scalar values;
`utf16Units` expands them to UTF-16 code units where the code indexes by
`charCodeAt`.
-/

mutual

/-- A JSON-shaped JavaScript value (`undefined` models `undefined`). -/
inductive JValue where
  | undefined : JValue
  | null : JValue
  | bool (b : Bool) : JValue
  | num (n : Int) : JValue
  | str (s : String) : JValue
  | arr (xs : JValueList) : JValue
  | obj (fs : JFields) : JValue

/-- A list of JSON values (elements of a JavaScript array). -/
inductive JValueList where
  | nil : JValueList
  | cons (v : JValue) (tl : JValueList) : JValueList

/-- The ordered own fields of a JavaScript object. -/
inductive JFields where
  | nil : JFields
  | cons (k : String) (v : JValue) (tl : JFields) : JFields

end

/-- Convert `JValueList` to an ordinary Lean list. -/
def JValueList.toList : JValueList → List JValue
  | .nil => []
  | .cons v tl => v :: tl.toList

/-- `true` exactly on `undefined` and `null` (JavaScript "nullish"). -/
def JValue.isNullish : JValue → Bool
  | .undefined => true
  | .null => true
  | _ => false

/-- `true` exactly on arrays; models `Array.isArray`. -/
def JValue.isArr : JValue → Bool
  | .arr _ => true
  | _ => false

/-- JavaScript truthiness of a JSON-shaped value. -/
def JValue.truthy : JValue → Bool
  | .undefined => false
  | .null => false
  | .bool b => b
  | .num n => n != 0
  | .str s => s != ""
  | .arr _ => true
  | .obj _ => true

/-- `v.isStr s` models the strict comparison `v === "s"` against a string literal. -/
def JValue.isStr (v : JValue) (s : String) : Bool :=
  match v with
  | .str t => t == s
  | _ => false

/-- First binding of a key in the field list of an object (`undefined` when absent). -/
def JFields.lookup : JFields → String → JValue
  | .nil, _ => .undefined
  | .cons k v tl, key => if k == key then v else tl.lookup key

/-- `v.getField k` models the optional-chained property access `v?.k`:
`undefined` when `v` is nullish or not an object, or when the key is absent. -/
def JValue.getField : JValue → String → JValue
  | .obj fs, k => fs.lookup k
  | _, _ => .undefined

/-- `nco a b` models the nullish-coalescing expression `a ?? b`. -/
def nco (a b : JValue) : JValue :=
  if a.isNullish then b else a

/-- The digit character of `n % 10`. -/
def digitChar (n : Nat) : Char :=
  match n % 10 with
  | 0 => '0' | 1 => '1' | 2 => '2' | 3 => '3' | 4 => '4'
  | 5 => '5' | 6 => '6' | 7 => '7' | 8 => '8' | _ => '9'

/-- Decimal digits of `n`, most significant first; `fuel` bounds recursion depth. -/
def natToDigitsAux : Nat → Nat → List Char
  | 0, _ => []
  | fuel + 1, n => if n < 10 then [digitChar n] else natToDigitsAux fuel (n / 10) ++ [digitChar n]

/-- Decimal representation of a natural number; models JavaScript
number-to-string conversion for non-negative integers. -/
def jsNatRepr (n : Nat) : String :=
  ⟨natToDigitsAux (n + 1) n⟩

/-- Decimal representation of an integer; models JavaScript number-to-string. -/
def jsIntRepr (n : Int) : String :=
  if n < 0 then "-" ++ jsNatRepr n.natAbs else jsNatRepr n.natAbs

mutual

/-- Models the JavaScript `String(x)` conversion on JSON-shaped values. -/
def jsToString : JValue → String
  | .undefined => "undefined"
  | .null => "null"
  | .bool b => if b then "true" else "false"
  | .num n => jsIntRepr n
  | .str s => s
  | .arr xs => jsArrToString xs
  | .obj _ => "[object Object]"

/-- Models `Array.prototype.toString` (elements joined by `","`,
with `null`/`undefined` elements rendered as the empty string). -/
def jsArrToString : JValueList → String
  | .nil => ""
  | .cons v .nil => jsElemToString v
  | .cons v (.cons w tl) => jsElemToString v ++ "," ++ jsArrToString (.cons w tl)

/-- String conversion of one array element inside `join`:
`null` and `undefined` become empty, the rest as `String(x)`. -/
def jsElemToString : JValue → String
  | .undefined => ""
  | .null => ""
  | .bool b => if b then "true" else "false"
  | .num n => jsIntRepr n
  | .str s => s
  | .arr xs => jsArrToString xs
  | .obj _ => "[object Object]"

end

/-- Lower-case hex digit of `n % 16`. -/
def hexDigit (n : Nat) : Char :=
  match n % 16 with
  | 0 => '0' | 1 => '1' | 2 => '2' | 3 => '3' | 4 => '4'
  | 5 => '5' | 6 => '6' | 7 => '7' | 8 => '8' | 9 => '9'
  | 10 => 'a' | 11 => 'b' | 12 => 'c' | 13 => 'd' | 14 => 'e' | _ => 'f'

/-- JSON escaping of one character inside a quoted string. -/
def escapeChar (c : Char) : List Char :=
  if c = '"' then ['\\', '"']
  else if c = '\\' then ['\\', '\\']
  else if c.toNat = 8 then ['\\', 'b']
  else if c.toNat = 9 then ['\\', 't']
  else if c.toNat = 10 then ['\\', 'n']
  else if c.toNat = 12 then ['\\', 'f']
  else if c.toNat = 13 then ['\\', 'r']
  else if c.toNat < 32 then ['\\', 'u', '0', '0', hexDigit (c.toNat / 16), hexDigit (c.toNat % 16)]
  else [c]

/-- JSON quoting of a string (surrounding quotes plus escaping). -/
def jsonQuote (s : String) : String :=
  ⟨'"' :: s.data.foldr (fun c acc => escapeChar c ++ acc) ['"']⟩

/-- Join string pieces with commas. -/
def joinComma : List String → String
  | [] => ""
  | [x] => x
  | x :: y :: tl => x ++ "," ++ joinComma (y :: tl)

mutual

/-- Models `JSON.stringify` on JSON-shaped values; `none` for `undefined`
(which `JSON.stringify` maps to no output at top level). -/
def jsonStringify : JValue → Option String
  | .undefined => none
  | .null => some "null"
  | .bool b => some (if b then "true" else "false")
  | .num n => some (jsIntRepr n)
  | .str s => some (jsonQuote s)
  | .arr xs => some ("[" ++ joinComma (jsonStringifyArr xs) ++ "]")
  | .obj fs => some ("\x7b" ++ joinComma (jsonStringifyObj fs) ++ "\x7d")

/-- Serialized pieces of the array elements (`undefined` elements become `null`). -/
def jsonStringifyArr : JValueList → List String
  | .nil => []
  | .cons v tl =>
    (match jsonStringify v with
     | some sv => sv
     | none => "null") :: jsonStringifyArr tl

/-- Serialized `"key":value` pieces of an object, skipping `undefined` values. -/
def jsonStringifyObj : JFields → List String
  | .nil => []
  | .cons k v tl =>
    match jsonStringify v with
    | some sv => (jsonQuote k ++ ":" ++ sv) :: jsonStringifyObj tl
    | none => jsonStringifyObj tl

end

/-- `JSON.stringify` as a total string function (`undefined` rendered as
the string a template literal would produce). -/
def jsonStringifyD (v : JValue) : String :=
  (jsonStringify v).getD "undefined"

/-- The JavaScript whitespace set used by `String.prototype.trim`
(ASCII whitespace, NBSP, BOM, and the Unicode space separators). -/
def jsWhitespace (c : Char) : Bool :=
  let n := c.toNat
  (9 ≤ n && n ≤ 13) || n == 32 || n == 160 || n == 5760 ||
    (8192 ≤ n && n ≤ 8202) || n == 8232 || n == 8233 || n == 8239 ||
    n == 8287 || n == 12288 || n == 65279

/-- Drop leading JavaScript whitespace. -/
def trimLeftList (l : List Char) : List Char :=
  l.dropWhile jsWhitespace

/-- Drop trailing JavaScript whitespace. -/
def trimRightList (l : List Char) : List Char :=
  (l.reverse.dropWhile jsWhitespace).reverse

/-- Trim both ends, as a character-list operation. -/
def jsTrimList (l : List Char) : List Char :=
  trimRightList (trimLeftList l)

/-- Models `String.prototype.trim`. -/
def jsTrim (s : String) : String :=
  ⟨jsTrimList s.data⟩

/-- Models `String.prototype.toLowerCase` (per-character lowering). -/
def jsToLower (s : String) : String :=
  ⟨s.data.map Char.toLower⟩

/-- Models the JavaScript `| 0` coercion: wrap an integer to signed 32 bits. -/
def toInt32 (n : Int) : Int :=
  (n + 2147483648) % 4294967296 - 2147483648

/-- UTF-16 code units of a string (astral scalars expand to surrogate pairs),
matching `charCodeAt` indexing. -/
def utf16Units (s : String) : List Nat :=
  s.data.foldr
    (fun c acc =>
      let n := c.toNat
      (if n < 65536 then [n]
       else [55296 + (n - 65536) / 1024, 56320 + (n - 65536) % 1024]) ++ acc)
    []

/-- `hashString` from `lib/api.ts`: `h = (h << 5) - h + charCode; h |= 0`
over the UTF-16 code units of the input. -/
def hashString (input : String) : Int :=
  (utf16Units input).foldl
    (fun h c => toInt32 (toInt32 (h * 32) - h + (c : Int))) 0


/-- Access classification of a source, the TS union `"public" | "internal"`. -/
inductive AccessLevel where
  | public : AccessLevel
  | internal : AccessLevel
deriving DecidableEq, Repr

/-- The string the TS value of an `AccessLevel` is. -/
def AccessLevel.toStr : AccessLevel → String
  | .public => "public"
  | .internal => "internal"

/-- Chat role, the TS union `"user" | "assistant"`. -/
inductive ChatRole where
  | user : ChatRole
  | assistant : ChatRole
deriving DecidableEq, Repr

/-- The normalized `Source` entity of `lib/api.ts`.  `extra` carries the raw
own fields of the raw object (the `{ ...s }` spread); the seven normalized fields
override the spread in the TS object, so they are kept separately here. -/
structure Source where
  id : String
  title : String
  «section» : String
  source : String
  accessLevel : AccessLevel
  snippet : String
  fullText : String
  extra : JFields

/-- `String(s?.id ?? "").trim()` — the trimmed explicit id. -/
def rawIdTrimmed (s : JValue) : String :=
  jsTrim (jsToString (nco (s.getField "id") (.str "")))

/-- The synthetic id template
`` `src-${idx}-${Math.abs(hashString(JSON.stringify(s ?? {})))}` ``. -/
def syntheticId (s : JValue) (idx : Nat) : String :=
  "src-" ++ jsNatRepr idx ++ "-" ++
    jsNatRepr (hashString (jsonStringifyD (nco s (.obj .nil)))).natAbs

/-- The id resolution of `normalizeSource`: trimmed explicit id, with the
synthetic id as the `||` fallback when it is empty. -/
def resolveId (s : JValue) (idx : Nat) : String :=
  if rawIdTrimmed s = "" then syntheticId s idx else rawIdTrimmed s

/-- `String(s?.title ?? s?.metadata?.title ?? "Source").trim()`. -/
def resolveTitle (s : JValue) : String :=
  jsTrim (jsToString (nco (s.getField "title")
    (nco ((s.getField "metadata").getField "title") (.str "Source"))))

/-- `String(s?.section ?? s?.metadata?.section ?? s?.metadata?.heading ?? "").trim()`. -/
def resolveSection (s : JValue) : String :=
  jsTrim (jsToString (nco (s.getField "section")
    (nco ((s.getField "metadata").getField "section")
      (nco ((s.getField "metadata").getField "heading") (.str "")))))

/-- `String(s?.source ?? s?.url ?? s?.metadata?.source ?? s?.metadata?.path ?? "").trim()`. -/
def resolveSourceField (s : JValue) : String :=
  jsTrim (jsToString (nco (s.getField "source")
    (nco (s.getField "url")
      (nco ((s.getField "metadata").getField "source")
        (nco ((s.getField "metadata").getField "path") (.str ""))))))

/-- `alRaw`: the access-level candidate chain, converted by `String(...)`
and lower-cased. -/
def resolveAccessRaw (s : JValue) : String :=
  jsToLower (jsToString (nco (s.getField "accessLevel")
    (nco (s.getField "access_level")
      (nco ((s.getField "metadata").getField "accessLevel")
        (nco ((s.getField "metadata").getField "access_level") (.str "internal"))))))

/-- `alRaw === "public" ? "public" : "internal"`. -/
def resolveAccessLevel (s : JValue) : AccessLevel :=
  if resolveAccessRaw s = "public" then .public else .internal

/-- `String(s?.snippet ?? s?.metadata?.snippet ?? s?.metadata?.text ?? "").trim()`. -/
def resolveSnippet (s : JValue) : String :=
  jsTrim (jsToString (nco (s.getField "snippet")
    (nco ((s.getField "metadata").getField "snippet")
      (nco ((s.getField "metadata").getField "text") (.str "")))))

/-- `String(s?.fullText ?? s?.full_text ?? s?.metadata?.fullText ??
s?.metadata?.text ?? snippet).trim()` — the last fallback is the
already-resolved snippet. -/
def resolveFullText (s : JValue) : String :=
  jsTrim (jsToString (nco (s.getField "fullText")
    (nco (s.getField "full_text")
      (nco ((s.getField "metadata").getField "fullText")
        (nco ((s.getField "metadata").getField "text") (.str (resolveSnippet s)))))))

/-- `normalizeSource` from `lib/api.ts`. -/
def normalizeSource (s : JValue) (idx : Nat) : Source :=
  { id := resolveId s idx
    title := resolveTitle s
    «section» := resolveSection s
    source := resolveSourceField s
    accessLevel := resolveAccessLevel s
    snippet := resolveSnippet s
    fullText := resolveFullText s
    extra := match s with | .obj fs => fs | _ => .nil }

/-- `normalizeSources` from `lib/api.ts`: empty unless the input is an array,
otherwise each element through `normalizeSource` with its index. -/
def normalizeSources : JValue → List Source
  | .arr xs => xs.toList.enum.map (fun p => normalizeSource p.2 p.1)
  | _ => []

/-- The relevant observable state of a `fetch` `Response` for `parseError`:
the HTTP status, the outcome of attempting `res.json()` (`none` = the body
did not parse), and the outcome of attempting `res.text()`.  The two body
reads are modelled as independent given outcomes. -/
structure HttpResponse where
  status : Nat
  jsonBody : Option JValue
  textBody : Option String

/-- `parseError` from `lib/api.ts`: `detail` field of the parsed body
(stringified when not a string) when truthy, else the whole parsed body
serialized, else the raw text, else `"HTTP <status>"`. -/
def parseError (res : HttpResponse) : String :=
  match res.jsonBody with
  | some j =>
    if (j.getField "detail").truthy then
      match j.getField "detail" with
      | .str s => s
      | d => jsonStringifyD d
    else jsonStringifyD j
  | none =>
    match res.textBody with
    | some t => t
    | none => "HTTP " ++ jsNatRepr res.status

/-- The `ChatResponse` result shape of `askKnowledgeAgent`. -/
structure ChatResponse where
  answer : String
  sources : List Source
  follow_up_questions : List String
  chat_session_id : Option String
  chat_session_title : Option String

/-- The success-path body handling of `askKnowledgeAgent`: how the parsed
response body `data` is mapped to the returned `ChatResponse`. -/
def askResponseOfData (data : JValue) : ChatResponse :=
  { answer := jsToString (nco (data.getField "answer") (.str ""))
    sources := normalizeSources (data.getField "sources")
    follow_up_questions :=
      match data.getField "follow_up_questions" with
      | .arr xs => xs.toList.map jsToString
      | _ =>
        match data.getField "follow_ups" with
        | .arr ys => ys.toList.map jsToString
        | _ => []
    chat_session_id :=
      if (data.getField "chat_session_id").truthy then
        some (jsToString (data.getField "chat_session_id"))
      else none
    chat_session_title :=
      if (data.getField "chat_session_title").truthy then
        some (jsToString (data.getField "chat_session_title"))
      else none }

/-- The `ChatSession` summary record. -/
structure ChatSession where
  id : String
  title : String
  preview : String
  updated_at : Option String

/-- The per-element mapping inside `listChatSessions`. -/
def normalizeChatSession (s : JValue) : ChatSession :=
  { id := jsToString (nco (s.getField "id") (.str ""))
    title := jsToString (nco (s.getField "title") (.str "New chat"))
    preview := jsToString (nco (s.getField "preview") (.str ""))
    updated_at :=
      if (s.getField "updated_at").truthy then
        some (jsToString (s.getField "updated_at"))
      else none }

/-- The success-path body handling of `listChatSessions`: non-array bodies
yield `[]`, arrays map elementwise. -/
def listSessionsOfData : JValue → List ChatSession
  | .arr xs => xs.toList.map normalizeChatSession
  | _ => []

/-- A single transcript turn. -/
structure ChatMessage where
  id : String
  role : ChatRole
  content : String
  created_at : Option String

/-- The per-element mapping inside `getChatSessionMessages`
(`m?.role === "assistant" ? "assistant" : "user"`). -/
def normalizeChatMessage (m : JValue) : ChatMessage :=
  { id := jsToString (nco (m.getField "id") (.str ""))
    role := if (m.getField "role").isStr "assistant" then .assistant else .user
    content := jsToString (nco (m.getField "content") (.str ""))
    created_at :=
      if (m.getField "created_at").truthy then
        some (jsToString (m.getField "created_at"))
      else none }

/-- The success-path body handling of `getChatSessionMessages`: non-array
bodies yield `[]`, arrays map elementwise. -/
def getMessagesOfData : JValue → List ChatMessage
  | .arr xs => xs.toList.map normalizeChatMessage
  | _ => []

/-- The success-path body handling of `webSearch`:
`Array.isArray(data) ? data : (data?.results ?? [])`. -/
def webSearchOfData (data : JValue) : JValue :=
  if data.isArr then data
  else if (data.getField "results").isNullish then .arr .nil
  else data.getField "results"

/-- The wording of the spec gives the hash as h*31 + charCode with 32-bit
signed wraparound at each step; this definition follows that wording, to be
compared with the hashString of the source. -/
def hashString31 (input : String) : Int :=
  (utf16Units input).foldl (fun h c => toInt32 (h * 31 + (c : Int))) 0

theorem toInt32_shift_step (h c : Int) :
    toInt32 (toInt32 (h * 32) - h + c) = toInt32 (h * 31 + c) := by
  unfold toInt32
  omega

theorem hashString_eq_hashString31 (input : String) :
    hashString input = hashString31 input := by
  unfold hashString hashString31
  simp only [toInt32_shift_step]

theorem dropWhile_self_idem (p : Char → Bool) (l : List Char) :
    (l.dropWhile p).dropWhile p = l.dropWhile p := by
  induction l with
  | nil => rfl
  | cons a t ih =>
    by_cases h : p a
    · simp [List.dropWhile_cons, h, ih]
    · simp [List.dropWhile_cons, h]

theorem dropWhile_eq_self_of_head (p : Char → Bool) (l : List Char)
    (h : ∀ c, l.head? = some c → p c = false) : l.dropWhile p = l := by
  cases l with
  | nil => rfl
  | cons a t => simp [List.dropWhile_cons, h a rfl]

theorem length_dropWhile_le (p : Char → Bool) (l : List Char) :
    (l.dropWhile p).length ≤ l.length := by
  induction l with
  | nil => exact Nat.le_refl _
  | cons a t ih =>
    rw [List.dropWhile_cons]
    by_cases h : p a = true
    · rw [if_pos h]
      exact Nat.le_trans ih (Nat.le_succ _)
    · rw [if_neg h]

theorem trimRightList_decomp (l : List Char) :
    trimRightList l ++ (l.reverse.takeWhile jsWhitespace).reverse = l := by
  unfold trimRightList
  rw [← List.reverse_append, List.takeWhile_append_dropWhile, List.reverse_reverse]

theorem trimRightList_idem (l : List Char) :
    trimRightList (trimRightList l) = trimRightList l := by
  simp [trimRightList, List.reverse_reverse, dropWhile_self_idem]

theorem dropWhile_trimRight_of_dropWhile (l : List Char)
    (h : l.dropWhile jsWhitespace = l) :
    (trimRightList l).dropWhile jsWhitespace = trimRightList l := by
  obtain hs := trimRightList_decomp l
  cases htr : trimRightList l with
  | nil => rfl
  | cons b u =>
    apply dropWhile_eq_self_of_head
    intro c hc
    have hbc : b = c := by
      simp only [List.head?_cons] at hc
      injection hc
    subst hbc
    rw [htr] at hs
    by_cases hb : jsWhitespace b = true
    · exfalso
      rw [← hs, List.cons_append, List.dropWhile_cons, if_pos hb] at h
      have hlen := congrArg List.length h
      have hle := length_dropWhile_le jsWhitespace
        (u ++ (l.reverse.takeWhile jsWhitespace).reverse)
      rw [List.length_cons] at hlen
      omega
    · simpa using hb

theorem jsTrimList_idem (l : List Char) :
    jsTrimList (jsTrimList l) = jsTrimList l := by
  unfold jsTrimList
  have h1 : trimLeftList (trimRightList (trimLeftList l)) = trimRightList (trimLeftList l) := by
    unfold trimLeftList
    exact dropWhile_trimRight_of_dropWhile (l.dropWhile jsWhitespace)
      (dropWhile_self_idem jsWhitespace l)
  rw [h1, trimRightList_idem]

theorem jsTrim_idem (s : String) : jsTrim (jsTrim s) = jsTrim s :=
  congrArg String.mk (jsTrimList_idem s.data)

theorem jsWhitespace_digitChar (n : Nat) : jsWhitespace (digitChar n) = false := by
  unfold digitChar
  have h : n % 10 = 0 ∨ n % 10 = 1 ∨ n % 10 = 2 ∨ n % 10 = 3 ∨ n % 10 = 4 ∨
      n % 10 = 5 ∨ n % 10 = 6 ∨ n % 10 = 7 ∨ n % 10 = 8 ∨ n % 10 = 9 := by omega
  rcases h with h|h|h|h|h|h|h|h|h|h <;> rw [h] <;> decide

theorem mem_natToDigitsAux_not_ws (fuel : Nat) :
    ∀ (n : Nat) (c : Char), c ∈ natToDigitsAux fuel n → jsWhitespace c = false := by
  induction fuel with
  | zero => intro n c hc; simp [natToDigitsAux] at hc
  | succ fuel ih =>
    intro n c hc
    unfold natToDigitsAux at hc
    by_cases h : n < 10
    · rw [if_pos h] at hc
      simp only [List.mem_singleton] at hc
      subst hc
      exact jsWhitespace_digitChar n
    · rw [if_neg h] at hc
      rcases List.mem_append.mp hc with hc | hc
      · exact ih _ _ hc
      · simp only [List.mem_singleton] at hc
        subst hc
        exact jsWhitespace_digitChar n

theorem natToDigitsAux_ne_nil (fuel n : Nat) : natToDigitsAux (fuel + 1) n ≠ [] := by
  unfold natToDigitsAux
  by_cases h : n < 10
  · rw [if_pos h]; simp
  · rw [if_neg h]; simp

theorem jsTrimList_eq_self (l : List Char)
    (h1 : l.dropWhile jsWhitespace = l)
    (h2 : l.reverse.dropWhile jsWhitespace = l.reverse) :
    jsTrimList l = l := by
  unfold jsTrimList trimLeftList trimRightList
  rw [h1, h2, List.reverse_reverse]

theorem srcTemplate_data (a b : Nat) :
    ("src-" ++ jsNatRepr a ++ "-" ++ jsNatRepr b).data =
      ("src-" ++ jsNatRepr a ++ "-").data ++ natToDigitsAux (b + 1) b :=
  String.data_append _ _

theorem srcTemplate_cons (a b : Nat) :
    ("src-" ++ jsNatRepr a ++ "-" ++ jsNatRepr b).data =
      's' :: ('r' :: 'c' :: '-' ::
        (natToDigitsAux (a + 1) a ++ ('-' :: natToDigitsAux (b + 1) b))) := by
  rw [String.data_append, String.data_append, String.data_append]
  show ['s', 'r', 'c', '-'] ++ natToDigitsAux (a + 1) a ++ ['-'] ++ natToDigitsAux (b + 1) b = _
  simp [List.append_assoc]

theorem jsTrim_srcTemplate (a b : Nat) :
    jsTrim ("src-" ++ jsNatRepr a ++ "-" ++ jsNatRepr b) =
      "src-" ++ jsNatRepr a ++ "-" ++ jsNatRepr b := by
  have h1 : ("src-" ++ jsNatRepr a ++ "-" ++ jsNatRepr b).data.dropWhile jsWhitespace =
      ("src-" ++ jsNatRepr a ++ "-" ++ jsNatRepr b).data := by
    rw [srcTemplate_cons, List.dropWhile_cons]
    have hs : jsWhitespace 's' = false := by decide
    rw [hs]
    simp
  have h2 : ("src-" ++ jsNatRepr a ++ "-" ++ jsNatRepr b).data.reverse.dropWhile jsWhitespace =
      ("src-" ++ jsNatRepr a ++ "-" ++ jsNatRepr b).data.reverse := by
    rw [srcTemplate_data, List.reverse_append]
    cases hrev : (natToDigitsAux (b + 1) b).reverse with
    | nil =>
      exfalso
      exact natToDigitsAux_ne_nil b b (by simpa using congrArg List.reverse hrev)
    | cons c u =>
      apply dropWhile_eq_self_of_head
      intro d hd
      have hcd : c = d := by
        rw [List.cons_append, List.head?_cons] at hd
        injection hd
      subst hcd
      have hc : c ∈ natToDigitsAux (b + 1) b := by
        rw [← List.mem_reverse, hrev]
        exact List.mem_cons_self _ _
      exact mem_natToDigitsAux_not_ws _ _ _ hc
  exact congrArg String.mk (jsTrimList_eq_self _ h1 h2)

theorem srcTemplate_ne_empty (a b : Nat) :
    "src-" ++ jsNatRepr a ++ "-" ++ jsNatRepr b ≠ "" := by
  intro he
  have hd := congrArg String.data he
  rw [srcTemplate_cons] at hd
  simp at hd

theorem jsTrim_syntheticId (s : JValue) (idx : Nat) :
    jsTrim (syntheticId s idx) = syntheticId s idx :=
  jsTrim_srcTemplate idx _

theorem syntheticId_ne_empty (s : JValue) (idx : Nat) : syntheticId s idx ≠ "" :=
  srcTemplate_ne_empty idx _

/-- C1, counterexample: the claim lists a raw accessLevel of "PUBLIC" among the
values that yield "internal", but normalizeSource lower-cases the resolved
value before comparing it with "public", so "PUBLIC" yields "public". -/
theorem c1_counterexample :
    (normalizeSource (.obj (.cons "accessLevel" (.str "PUBLIC") .nil)) 0).accessLevel
      = AccessLevel.public ∧ AccessLevel.public ≠ AccessLevel.internal :=
  ⟨rfl, by decide⟩

/-- C1, amended: normalizeSource yields accessLevel "public" exactly when the
raw access-level field (resolved in order accessLevel, access_level,
metadata.accessLevel, metadata.access_level, defaulting to "internal"),
converted to a string and lower-cased, is exactly "public"; hence the
case variant "PUBLIC" yields "public", while "Public " (trailing space),
"unknown", or an absent field yield "internal". -/
theorem c1_accessLevel_amended :
    (∀ (s : JValue) (idx : Nat),
      (normalizeSource s idx).accessLevel = AccessLevel.public ↔
        resolveAccessRaw s = "public") ∧
    (normalizeSource (.obj (.cons "accessLevel" (.str "Public ") .nil)) 0).accessLevel
      = AccessLevel.internal ∧
    (normalizeSource (.obj (.cons "accessLevel" (.str "PUBLIC") .nil)) 0).accessLevel
      = AccessLevel.public ∧
    (normalizeSource (.obj (.cons "accessLevel" (.str "unknown") .nil)) 0).accessLevel
      = AccessLevel.internal ∧
    (normalizeSource (.obj .nil) 0).accessLevel = AccessLevel.internal := by
  refine ⟨?_, rfl, rfl, rfl, rfl⟩
  intro s idx
  show resolveAccessLevel s = AccessLevel.public ↔ resolveAccessRaw s = "public"
  unfold resolveAccessLevel
  by_cases h : resolveAccessRaw s = "public"
  · simp [h]
  · simp [h]

/-- C1, witness for the amended theorem: a raw source carrying
access_level "Public" (alternate key, mixed case) normalizes to public. -/
theorem c1_accessLevel_amended_witness :
    (normalizeSource (.obj (.cons "access_level" (.str "Public") .nil)) 1).accessLevel
      = AccessLevel.public :=
  (c1_accessLevel_amended.1 (.obj (.cons "access_level" (.str "Public") .nil)) 1).mpr
    (by decide)

/-- C2: normalizeSource is total in this model (it is a Lean function into the
Source structure, so every one of the seven fields is a defined string or
enum value for every JSON-shaped input and every index); moreover the id
field is never the empty string, and normalizeSources applied to a
one-element array holding an empty object yields exactly one entry with all
defaulted fields: synthetic id "src-0-3938", title "Source", empty section,
source, snippet and fullText, and accessLevel internal. -/
theorem c2_normalizeSource_total_defaults :
    (∀ (s : JValue) (idx : Nat), (normalizeSource s idx).id ≠ "") ∧
    normalizeSources (.arr (.cons (.obj .nil) .nil)) =
      [{ id := "src-0-3938", title := "Source", «section» := "", source := "",
         accessLevel := .internal, snippet := "", fullText := "", extra := .nil }] := by
  constructor
  · intro s idx
    show resolveId s idx ≠ ""
    unfold resolveId
    by_cases h : rawIdTrimmed s = ""
    · rw [if_pos h]
      exact syntheticId_ne_empty s idx
    · rw [if_neg h]
      exact h
  · rfl

/-- C2, witness: the id of a normalized empty object is non-empty. -/
theorem c2_witness : (normalizeSource (.obj .nil) 5).id ≠ "" :=
  c2_normalizeSource_total_defaults.1 (.obj .nil) 5

/-- C3: whenever the trimmed explicit id of the raw value is empty, the
normalized id equals "src-" ++ index ++ "-" ++ |h|, where h is hashString31 —
the iterated h*31 + charCode accumulation with 32-bit signed wraparound at
each step starting from 0, which the source computes as
(h << 5) - h + charCode with h |= 0 — applied to the JSON serialization of
the raw value (a nullish raw value serializes as the empty object); the id is
non-empty, and normalizing byte-identical input twice at the same index
yields the same id, normalizeSource being a pure function. -/
theorem c3_syntheticId :
    ∀ (s : JValue) (idx : Nat),
      rawIdTrimmed s = "" →
      (normalizeSource s idx).id =
        "src-" ++ jsNatRepr idx ++ "-" ++
          jsNatRepr (hashString31 (jsonStringifyD (nco s (.obj .nil)))).natAbs ∧
      (normalizeSource s idx).id ≠ "" ∧
      (normalizeSource s idx).id = (normalizeSource s idx).id := by
  intro s idx h
  refine ⟨?_, ?_, rfl⟩
  · show resolveId s idx = _
    unfold resolveId
    rw [if_pos h]
    unfold syntheticId
    rw [hashString_eq_hashString31]
  · show resolveId s idx ≠ ""
    unfold resolveId
    rw [if_pos h]
    exact syntheticId_ne_empty s idx

/-- C3, witness: the empty object at index 0 (its trimmed explicit id is
empty) receives the synthetic id built from the spec hash formulation. -/
theorem c3_witness :
    rawIdTrimmed (.obj .nil) = "" ∧
    ((normalizeSource (.obj .nil) 0).id =
      "src-" ++ jsNatRepr 0 ++ "-" ++
        jsNatRepr (hashString31 (jsonStringifyD (nco (.obj .nil) (.obj .nil)))).natAbs ∧
     (normalizeSource (.obj .nil) 0).id ≠ "" ∧
     (normalizeSource (.obj .nil) 0).id = (normalizeSource (.obj .nil) 0).id) :=
  ⟨rfl, c3_syntheticId (.obj .nil) 0 rfl⟩

/-- A fully-populated raw source object using all seven canonical field names
with string values. -/
def canonicalRaw (i t sec src al sn ft : String) : JValue :=
  .obj (.cons "id" (.str i) (.cons "title" (.str t) (.cons "section" (.str sec)
    (.cons "source" (.str src) (.cons "accessLevel" (.str al)
      (.cons "snippet" (.str sn) (.cons "fullText" (.str ft) .nil)))))))

/-- C4, counterexample: a fully-populated canonical raw source whose id value
is " x " (string value with surrounding whitespace) is altered by
normalization — the normalized id is the trimmed "x", not the raw " x ". -/
theorem c4_counterexample :
    (normalizeSource (canonicalRaw " x " "T" "S" "U" "public" "N" "F") 0).id = "x" ∧
    ("x" : String) ≠ " x " :=
  ⟨rfl, by decide⟩

/-- C4, amended: for every fully-populated canonical raw source object with
string values, provided each value carries no surrounding whitespace (it is
fixed by trimming), the id is non-empty, and the accessLevel value is exactly
"public" or "internal", the normalized Source carries byte-identical values
for all seven fields. -/
theorem c4_roundtrip_amended :
    ∀ (idx : Nat) (i t sec src al sn ft : String),
      jsTrim i = i → i ≠ "" → jsTrim t = t → jsTrim sec = sec → jsTrim src = src →
      (al = "public" ∨ al = "internal") → jsTrim sn = sn → jsTrim ft = ft →
      (normalizeSource (canonicalRaw i t sec src al sn ft) idx).id = i ∧
      (normalizeSource (canonicalRaw i t sec src al sn ft) idx).title = t ∧
      (normalizeSource (canonicalRaw i t sec src al sn ft) idx).«section» = sec ∧
      (normalizeSource (canonicalRaw i t sec src al sn ft) idx).source = src ∧
      (normalizeSource (canonicalRaw i t sec src al sn ft) idx).accessLevel.toStr = al ∧
      (normalizeSource (canonicalRaw i t sec src al sn ft) idx).snippet = sn ∧
      (normalizeSource (canonicalRaw i t sec src al sn ft) idx).fullText = ft := by
  intro idx i t sec src al sn ft hi hi0 ht hsec hsrc hal hsn hft
  refine ⟨?_, ?_, ?_, ?_, ?_, ?_, ?_⟩
  · show resolveId (canonicalRaw i t sec src al sn ft) idx = i
    unfold resolveId
    have hraw : rawIdTrimmed (canonicalRaw i t sec src al sn ft) = jsTrim i := rfl
    rw [hraw, hi, if_neg hi0]
  · show resolveTitle (canonicalRaw i t sec src al sn ft) = t
    have : resolveTitle (canonicalRaw i t sec src al sn ft) = jsTrim t := rfl
    rw [this, ht]
  · show resolveSection (canonicalRaw i t sec src al sn ft) = sec
    have : resolveSection (canonicalRaw i t sec src al sn ft) = jsTrim sec := rfl
    rw [this, hsec]
  · show resolveSourceField (canonicalRaw i t sec src al sn ft) = src
    have : resolveSourceField (canonicalRaw i t sec src al sn ft) = jsTrim src := rfl
    rw [this, hsrc]
  · rcases hal with h | h <;> subst h <;> rfl
  · show resolveSnippet (canonicalRaw i t sec src al sn ft) = sn
    have : resolveSnippet (canonicalRaw i t sec src al sn ft) = jsTrim sn := rfl
    rw [this, hsn]
  · show resolveFullText (canonicalRaw i t sec src al sn ft) = ft
    have : resolveFullText (canonicalRaw i t sec src al sn ft) = jsTrim ft := rfl
    rw [this, hft]

/-- C4, witness for the amended theorem at a concrete fully-populated raw
source with already-trimmed values. -/
theorem c4_roundtrip_amended_witness :
    jsTrim "a1" = "a1" ∧ ("a1" : String) ≠ "" ∧ jsTrim "Doc" = "Doc" ∧
    jsTrim "Intro" = "Intro" ∧ jsTrim "kb/doc.md" = "kb/doc.md" ∧
    (("public" : String) = "public" ∨ ("public" : String) = "internal") ∧
    jsTrim "hello" = "hello" ∧ jsTrim "hello world" = "hello world" ∧
    ((normalizeSource (canonicalRaw "a1" "Doc" "Intro" "kb/doc.md" "public" "hello" "hello world") 2).id = "a1" ∧
     (normalizeSource (canonicalRaw "a1" "Doc" "Intro" "kb/doc.md" "public" "hello" "hello world") 2).title = "Doc" ∧
     (normalizeSource (canonicalRaw "a1" "Doc" "Intro" "kb/doc.md" "public" "hello" "hello world") 2).«section» = "Intro" ∧
     (normalizeSource (canonicalRaw "a1" "Doc" "Intro" "kb/doc.md" "public" "hello" "hello world") 2).source = "kb/doc.md" ∧
     (normalizeSource (canonicalRaw "a1" "Doc" "Intro" "kb/doc.md" "public" "hello" "hello world") 2).accessLevel.toStr = "public" ∧
     (normalizeSource (canonicalRaw "a1" "Doc" "Intro" "kb/doc.md" "public" "hello" "hello world") 2).snippet = "hello" ∧
     (normalizeSource (canonicalRaw "a1" "Doc" "Intro" "kb/doc.md" "public" "hello" "hello world") 2).fullText = "hello world") :=
  ⟨by decide, by decide, by decide, by decide, by decide, Or.inl rfl, by decide, by decide,
    c4_roundtrip_amended 2 "a1" "Doc" "Intro" "kb/doc.md" "public" "hello" "hello world"
      (by decide) (by decide) (by decide) (by decide) (by decide) (Or.inl rfl)
      (by decide) (by decide)⟩

/-- C5: the error message of a non-success response follows the strictly
sequential chain of parseError — the detail field of the parsed body when
truthy (as-is for a string, serialized otherwise), else the serialization of
the whole parsed body, else the raw response text, else " HTTP status"; in
particular a body whose detail is "bad scope" yields "bad scope", and an
unparseable body with raw text "oops" yields "oops". -/
theorem c5_parseError_chain :
    (∀ (res : HttpResponse) (j : JValue) (s : String),
      res.jsonBody = some j → j.getField "detail" = .str s → s ≠ "" →
      parseError res = s) ∧
    (∀ (res : HttpResponse) (j : JValue),
      res.jsonBody = some j → (j.getField "detail").truthy = true →
      (∀ t, j.getField "detail" ≠ .str t) →
      parseError res = jsonStringifyD (j.getField "detail")) ∧
    (∀ (res : HttpResponse) (j : JValue),
      res.jsonBody = some j → (j.getField "detail").truthy = false →
      parseError res = jsonStringifyD j) ∧
    (∀ (res : HttpResponse) (t : String),
      res.jsonBody = none → res.textBody = some t → parseError res = t) ∧
    (∀ res : HttpResponse,
      res.jsonBody = none → res.textBody = none →
      parseError res = "HTTP " ++ jsNatRepr res.status) ∧
    parseError ⟨422, some (.obj (.cons "detail" (.str "bad scope") .nil)), some "irrelevant"⟩
      = "bad scope" ∧
    parseError ⟨500, none, some "oops"⟩ = "oops" := by
  refine ⟨?_, ?_, ?_, ?_, ?_, rfl, rfl⟩
  · intro res j s hj hd hs
    obtain ⟨st, jb, tb⟩ := res
    simp only at hj
    subst hj
    show (if (j.getField "detail").truthy then _ else _) = s
    have htru : (j.getField "detail").truthy = true := by
      rw [hd]
      simpa [JValue.truthy] using hs
    rw [if_pos htru, hd]
  · intro res j hj hd hns
    obtain ⟨st, jb, tb⟩ := res
    simp only at hj
    subst hj
    show (if (j.getField "detail").truthy then _ else _) = _
    rw [if_pos hd]
    cases hD : j.getField "detail" with
    | undefined => rfl
    | null => rfl
    | bool b => rfl
    | num n => rfl
    | str t => exact absurd hD (hns t)
    | arr xs => rfl
    | obj fs => rfl
  · intro res j hj hd
    obtain ⟨st, jb, tb⟩ := res
    simp only at hj
    subst hj
    show (if (j.getField "detail").truthy then _ else _) = _
    rw [if_neg (by simp [hd])]
  · intro res t hj ht
    obtain ⟨st, jb, tb⟩ := res
    simp only at hj ht
    subst hj
    subst ht
    rfl
  · intro res hj ht
    obtain ⟨st, jb, tb⟩ := res
    simp only at hj ht
    subst hj
    subst ht
    rfl

/-- C5, witness: the first chain step applied at a concrete response whose
parsed body has a string detail field. -/
theorem c5_parseError_chain_witness :
    parseError ⟨403, some (.obj (.cons "detail" (.str "forbidden") .nil)), none⟩
      = "forbidden" :=
  c5_parseError_chain.1 ⟨403, some (.obj (.cons "detail" (.str "forbidden") .nil)), none⟩
    (.obj (.cons "detail" (.str "forbidden") .nil)) "forbidden" rfl rfl (by decide)

/-- C6: webSearch returns the success body itself when the body is a bare
array, the results field of the body when the body is an object carrying a
non-nullish one, and an empty sequence for every other body. -/
theorem c6_webSearch :
    (∀ xs : JValueList, webSearchOfData (.arr xs) = .arr xs) ∧
    (∀ fs : JFields, ((JValue.obj fs).getField "results").isNullish = false →
      webSearchOfData (.obj fs) = (JValue.obj fs).getField "results") ∧
    (∀ data : JValue, data.isArr = false →
      (data.getField "results").isNullish = true →
      webSearchOfData data = .arr .nil) := by
  refine ⟨?_, ?_, ?_⟩
  · intro xs
    rfl
  · intro fs h
    show (if (JValue.obj fs).isArr then _ else _) = _
    rw [if_neg (by simp [JValue.isArr]), if_neg (by simp [h])]
  · intro data h1 h2
    show (if data.isArr then _ else _) = _
    rw [if_neg (by simp [h1]), if_pos h2]

/-- C6, witness: a non-array body carrying results gets that field back, and
a string body normalizes to the empty array. -/
theorem c6_webSearch_witness :
    webSearchOfData (.obj (.cons "results" (.arr (.cons (.str "r") .nil)) .nil))
      = .arr (.cons (.str "r") .nil) ∧
    webSearchOfData (.str "hi") = .arr .nil :=
  ⟨c6_webSearch.2.1 (.cons "results" (.arr (.cons (.str "r") .nil)) .nil) rfl,
   c6_webSearch.2.2 (.str "hi") rfl rfl⟩

/-- C7: for every input value that is not an array, normalizeSources returns
the empty sequence, and the success-body handling of listChatSessions and
getChatSessionMessages each return an empty sequence rather than raising. -/
theorem c7_nonArray_empty :
    ∀ data : JValue, data.isArr = false →
      normalizeSources data = [] ∧ listSessionsOfData data = [] ∧
        getMessagesOfData data = [] := by
  intro data h
  cases data <;>
    simp_all [normalizeSources, listSessionsOfData, getMessagesOfData, JValue.isArr]

/-- C7, witness: an object body (such as an error envelope) yields empty
sequences from all three. -/
theorem c7_nonArray_empty_witness :
    normalizeSources (.obj .nil) = [] ∧ listSessionsOfData (.obj .nil) = [] ∧
      getMessagesOfData (.obj .nil) = [] :=
  c7_nonArray_empty (.obj .nil) rfl

/-- C8: in the result of askKnowledgeAgent, follow_up_questions is the body
follow_up_questions sequence with each element stringified; when the primary
key is absent the alternate key follow_ups is used (stringified likewise);
when neither is present the result is empty; in particular the body carrying
answer "X", empty sources and follow_ups ["A","B"] yields ["A","B"]. -/
theorem c8_follow_up_questions :
    (∀ (data : JValue) (xs : JValueList),
      data.getField "follow_up_questions" = .arr xs →
      (askResponseOfData data).follow_up_questions = xs.toList.map jsToString) ∧
    (∀ (data : JValue) (ys : JValueList),
      data.getField "follow_up_questions" = .undefined →
      data.getField "follow_ups" = .arr ys →
      (askResponseOfData data).follow_up_questions = ys.toList.map jsToString) ∧
    (∀ data : JValue,
      data.getField "follow_up_questions" = .undefined →
      data.getField "follow_ups" = .undefined →
      (askResponseOfData data).follow_up_questions = []) ∧
    (askResponseOfData (.obj (.cons "answer" (.str "X") (.cons "sources" (.arr .nil)
      (.cons "follow_ups" (.arr (.cons (.str "A") (.cons (.str "B") .nil)))
        .nil))))).follow_up_questions = ["A", "B"] := by
  refine ⟨?_, ?_, ?_, rfl⟩
  · intro data xs h
    show (match data.getField "follow_up_questions" with
      | JValue.arr xs => xs.toList.map jsToString
      | _ => match data.getField "follow_ups" with
        | JValue.arr ys => ys.toList.map jsToString
        | _ => []) = xs.toList.map jsToString
    rw [h]
  · intro data ys h1 h2
    show (match data.getField "follow_up_questions" with
      | JValue.arr xs => xs.toList.map jsToString
      | _ => match data.getField "follow_ups" with
        | JValue.arr ys => ys.toList.map jsToString
        | _ => []) = ys.toList.map jsToString
    rw [h1, h2]
  · intro data h1 h2
    show (match data.getField "follow_up_questions" with
      | JValue.arr xs => xs.toList.map jsToString
      | _ => match data.getField "follow_ups" with
        | JValue.arr ys => ys.toList.map jsToString
        | _ => []) = []
    rw [h1, h2]

/-- C8, witness: the fallback clause applied at the concrete alternate-key
body from the claim. -/
theorem c8_follow_up_questions_witness :
    (askResponseOfData (.obj (.cons "answer" (.str "X") (.cons "sources" (.arr .nil)
      (.cons "follow_ups" (.arr (.cons (.str "A") (.cons (.str "B") .nil)))
        .nil))))).follow_up_questions =
      (JValueList.cons (.str "A") (.cons (.str "B") .nil)).toList.map jsToString :=
  c8_follow_up_questions.2.1
    (.obj (.cons "answer" (.str "X") (.cons "sources" (.arr .nil)
      (.cons "follow_ups" (.arr (.cons (.str "A") (.cons (.str "B") .nil))) .nil))))
    (.cons (.str "A") (.cons (.str "B") .nil)) rfl rfl

/-- C9: a transcript entry normalizes to role assistant exactly when its raw
role value is the literal string "assistant"; getChatSessionMessages maps
each array element through this normalization; the wrong-cased "Assistant"
coerces to user. -/
theorem c9_role_coercion :
    (∀ m : JValue, (normalizeChatMessage m).role = ChatRole.assistant ↔
      m.getField "role" = .str "assistant") ∧
    (∀ xs : JValueList,
      getMessagesOfData (.arr xs) = xs.toList.map normalizeChatMessage) ∧
    (normalizeChatMessage (.obj (.cons "role" (.str "Assistant") .nil))).role
      = ChatRole.user := by
  refine ⟨?_, fun xs => rfl, rfl⟩
  intro m
  show (if (m.getField "role").isStr "assistant" then ChatRole.assistant
    else ChatRole.user) = ChatRole.assistant ↔ m.getField "role" = .str "assistant"
  cases hD : m.getField "role" with
  | str t =>
    by_cases h : t = "assistant"
    · subst h
      simp [JValue.isStr]
    · simp [JValue.isStr, h]
  | undefined => simp [JValue.isStr]
  | null => simp [JValue.isStr]
  | bool b => simp [JValue.isStr]
  | num n => simp [JValue.isStr]
  | arr xs => simp [JValue.isStr]
  | obj fs => simp [JValue.isStr]

/-- C9, witness: the exact literal "assistant" maps to role assistant. -/
theorem c9_role_coercion_witness :
    (normalizeChatMessage (.obj (.cons "role" (.str "assistant") .nil))).role
      = ChatRole.assistant :=
  (c9_role_coercion.1 (.obj (.cons "role" (.str "assistant") .nil))).mpr rfl

/-- C10: every string field of a normalized Source — id, title, section,
source, snippet, fullText — carries no leading or trailing whitespace
(trimming it is the identity), and the trim happens before the empty check:
whenever the raw id is whitespace-only (its trimmed string conversion is
empty) the normalized id is the synthetic one. -/
theorem c10_fields_trimmed :
    ∀ (s : JValue) (idx : Nat),
      jsTrim (normalizeSource s idx).id = (normalizeSource s idx).id ∧
      jsTrim (normalizeSource s idx).title = (normalizeSource s idx).title ∧
      jsTrim (normalizeSource s idx).«section» = (normalizeSource s idx).«section» ∧
      jsTrim (normalizeSource s idx).source = (normalizeSource s idx).source ∧
      jsTrim (normalizeSource s idx).snippet = (normalizeSource s idx).snippet ∧
      jsTrim (normalizeSource s idx).fullText = (normalizeSource s idx).fullText ∧
      (rawIdTrimmed s = "" → (normalizeSource s idx).id = syntheticId s idx) := by
  intro s idx
  refine ⟨?_, ?_, ?_, ?_, ?_, ?_, ?_⟩
  · show jsTrim (resolveId s idx) = resolveId s idx
    unfold resolveId
    by_cases h : rawIdTrimmed s = ""
    · rw [if_pos h]
      exact jsTrim_syntheticId s idx
    · rw [if_neg h]
      unfold rawIdTrimmed
      exact jsTrim_idem _
  · show jsTrim (resolveTitle s) = resolveTitle s
    unfold resolveTitle
    exact jsTrim_idem _
  · show jsTrim (resolveSection s) = resolveSection s
    unfold resolveSection
    exact jsTrim_idem _
  · show jsTrim (resolveSourceField s) = resolveSourceField s
    unfold resolveSourceField
    exact jsTrim_idem _
  · show jsTrim (resolveSnippet s) = resolveSnippet s
    unfold resolveSnippet
    exact jsTrim_idem _
  · show jsTrim (resolveFullText s) = resolveFullText s
    unfold resolveFullText
    exact jsTrim_idem _
  · intro h
    show resolveId s idx = syntheticId s idx
    unfold resolveId
    rw [if_pos h]

/-- C10, witness: a raw source whose id is three spaces still receives the
synthetic id, and its normalized id is trim-fixed. -/
theorem c10_fields_trimmed_witness :
    rawIdTrimmed (.obj (.cons "id" (.str "   ") .nil)) = "" ∧
    jsTrim (normalizeSource (.obj (.cons "id" (.str "   ") .nil)) 1).id
      = (normalizeSource (.obj (.cons "id" (.str "   ") .nil)) 1).id ∧
    (normalizeSource (.obj (.cons "id" (.str "   ") .nil)) 1).id
      = syntheticId (.obj (.cons "id" (.str "   ") .nil)) 1 :=
  ⟨by decide,
   (c10_fields_trimmed (.obj (.cons "id" (.str "   ") .nil)) 1).1,
   (c10_fields_trimmed (.obj (.cons "id" (.str "   ") .nil)) 1).2.2.2.2.2.2
     (by decide)⟩
